import Mathlib

/-!
# Verification of dora-the-explorer's fork cache, deposit indexer, store queries,
# block field synchronization and SSE client

Shallow embedding of the indexing subsystem of the `pk910/dora-the-explorer`
repository. Pure data and control flow are translated from the Go source
(`indexer/beacon/forkcache.go`, `indexer/beacon/block.go`, the deposit indexer,
the db query layer and `rpc/eventstream/eventstream.go`). Helper functions of
the block cache that are not part of the provided sources are modelled from the
specification and marked as such in their doc comments.
-/

namespace Dora

/-! ## Data model: blocks and forks

Block roots are modelled as natural numbers (the Go code uses opaque 32-byte
roots compared only for equality). `parentRoot` is `none` when the parent
pointer is unavailable (`GetParentRoot` returning nil). -/

/-- A cached beacon block (the fields of `beacon.Block` used by the fork cache:
`Root`, `Slot`, parent root, `forkId`). -/
structure Block where
  root : Nat
  slot : Nat
  parentRoot : Option Nat
  forkId : Nat
  deriving Repr, DecidableEq

/-- A fork entity (`beacon.Fork` / db `forks` row): `fork_id`, `base_slot`,
`base_root`, `leaf_slot`, `leaf_root`, `parent_fork`. -/
structure Fork where
  forkId : Nat
  baseSlot : Nat
  baseRoot : Nat
  leafSlot : Nat
  leafRoot : Nat
  parentFork : Nat
  deriving Repr, DecidableEq

/-- The combined in-memory state used by `forkCache.processBlock`: the block
cache contents (in insertion order), the fork cache contents, the monotonic
fork-id counter, the chain state's finalized slot and the configured
`minForkDistance`. -/
structure CacheState where
  blocks : List Block
  forks : List Fork
  nextForkId : Nat
  finalizedSlot : Nat
  minForkDistance : Nat
  deriving Repr, DecidableEq

/-- `blockCache.getBlockByRoot`: root → block lookup.
Modelled from the spec: the Block Cache "holds a mapping root → Block";
`get_by_root(root) → Block?` is a map lookup (the function itself is not among
the provided sources). -/
def getBlockByRoot (s : CacheState) (root : Nat) : Option Block :=
  s.blocks.find? (fun b => b.root = root)

/-- `blockCache.getForkBlocks`: all cached blocks currently labeled with the
given fork id. Modelled from the spec: `get_fork_blocks(fork_id) → [Block]` —
"all cached blocks currently labeled with that fork" (the function itself is
not among the provided sources). -/
def getForkBlocks (s : CacheState) (forkId : Nat) : List Block :=
  s.blocks.filter (fun b => b.forkId = forkId)

/-- `blockCache.getCanonicalDistance`. Modelled from the spec:
`get_canonical_distance(from_root, to_root, cap)` "walks parent pointers from
`from_root` until it either reaches `to_root` (returns `(true, depth)`) or
exceeds `cap` or crosses the finalized slot (returns `(false, _)`). Distance is
counted in blocks". At the call sites in `forkcache.go` the walk's starting
root (the spec's `from_root`, here `headRoot`) is passed second and the target
(the spec's `to_root`, here `targetRoot`) first; a cap of `0` means no cap (the
spec writes `∞` for the call site that passes `0`). The walk is fuelled by the
cache size; a missing parent terminates the walk unsuccessfully. -/
def getCanonicalDistanceAux (s : CacheState) (targetRoot : Nat) (maxDistance : Nat) :
    Nat → Block → Nat → Bool × Nat
  | 0, _, _ => (false, 0)
  | fuel + 1, b, dist =>
    if b.root = targetRoot then (true, dist)
    else if b.slot ≤ s.finalizedSlot then (false, 0)
    else if maxDistance ≠ 0 ∧ dist > maxDistance then (false, 0)
    else
      match b.parentRoot with
      | none => (false, 0)
      | some pr =>
        match getBlockByRoot s pr with
        | none => (false, 0)
        | some pb => getCanonicalDistanceAux s targetRoot maxDistance fuel pb (dist + 1)

/-- See `getCanonicalDistanceAux`; the walk starts at `headRoot`. -/
def getCanonicalDistance (s : CacheState) (targetRoot headRoot : Nat) (maxDistance : Nat) :
    Bool × Nat :=
  match getBlockByRoot s headRoot with
  | none => (false, 0)
  | some hb => getCanonicalDistanceAux s targetRoot maxDistance (s.blocks.length + 1) hb 0

/-- `forkCache.getClosestFork`: iterate all forks; a fork is a candidate if
`getCanonicalDistance(fork.leafRoot, block.Root, closestDistance)` reports the
leaf reachable from the block; keep the one with the smallest distance
(translated from `forkcache.go`; the fork map is iterated in list order). -/
def getClosestFork (s : CacheState) (block : Block) : Option Fork :=
  (s.forks.foldl
    (fun (acc : Option (Fork × Nat)) fork =>
      let closestDistance := match acc with | none => 0 | some (_, d) => d
      let r := getCanonicalDistance s fork.leafRoot block.root closestDistance
      if !r.1 then acc
      else
        match acc with
        | none => some (fork, r.2)
        | some (_, cd) => if r.2 < cd then some (fork, r.2) else acc)
    none).map (·.1)

/-- Result of a successful `checkForkDistance` probe: the base block, the
distance and converged leaf on the side of the processed block, and the same
for the other side. -/
structure ProbeResult where
  baseBlock : Block
  block1Distance : Nat
  leafBlock1 : Block
  block2Distance : Nat
  leafBlock2 : Block
  deriving Repr, DecidableEq

/-- Insert a root into the shared `parentsMap` seen-set. -/
def markParent (pm : List Nat) (r : Nat) : List Nat :=
  if pm.contains r then pm else r :: pm

/-- `forkCache.checkForkDistance`, translated line by line from `forkcache.go`:
starting with the two blocks, repeatedly step whichever has the higher slot (or
both when equal) to its parent, recording every visited root in the shared
`parentsMap`; succeed when the roots coincide, fail when either side falls to
or below the finalized slot or a parent is unavailable. On the failure path the
Go code returns all-nil/zero, but the `parentsMap` mutations persist. -/
def checkForkDistanceAux (s : CacheState) :
    Nat → Block → Block → Block → Block → Nat → Nat → List Nat →
    Option ProbeResult × List Nat
  | 0, _, _, _, _, _, _, pm => (none, pm)
  | fuel + 1, b1, b2, leaf1, leaf2, d1, d2, pm =>
    let pm := markParent (markParent pm b1.root) b2.root
    if b1.root = b2.root then (some ⟨b1, d1, leaf1, d2, leaf2⟩, pm)
    else if b1.slot ≤ s.finalizedSlot ∨ b2.slot ≤ s.finalizedSlot then (none, pm)
    else if b1.slot ≤ b2.slot then
      -- step block2 to its parent
      let leaf2 := b2
      match b2.parentRoot with
      | none => (none, pm)
      | some pr2 =>
        match getBlockByRoot s pr2 with
        | none => (none, pm)
        | some b2' =>
          let d2 := d2 + 1
          if b2'.slot ≤ b1.slot then
            -- also step block1 to its parent (second if of the loop body)
            let leaf1 := b1
            match b1.parentRoot with
            | none => (none, pm)
            | some pr1 =>
              match getBlockByRoot s pr1 with
              | none => (none, pm)
              | some b1' => checkForkDistanceAux s fuel b1' b2' leaf1 leaf2 (d1 + 1) d2 pm
          else checkForkDistanceAux s fuel b1 b2' leaf1 leaf2 d1 d2 pm
    else
      -- first if skipped (b2.slot < b1.slot), second if applies: step block1
      let leaf1 := b1
      match b1.parentRoot with
      | none => (none, pm)
      | some pr1 =>
        match getBlockByRoot s pr1 with
        | none => (none, pm)
        | some b1' => checkForkDistanceAux s fuel b1' b2 leaf1 leaf2 (d1 + 1) d2 pm

/-- Entry point of `forkCache.checkForkDistance` with the leaves initialized to
the two endpoints and distances zero, fuelled by twice the cache size. -/
def checkForkDistance (s : CacheState) (block1 block2 : Block) (pm : List Nat) :
    Option ProbeResult × List Nat :=
  checkForkDistanceAux s (2 * s.blocks.length + 2) block1 block2 block1 block2 0 0 pm

/-- `newFork`. Modelled from the spec: a fork created by the splitting
algorithm has `base = base`, `leaf = leafN`, `parent_fork`; fork ids are
"assigned by an in-memory monotonic counter" (the constructor itself is not
among the provided sources; `fork_id = 0` is reserved for the canonical
chain, so a `nil` parent fork is recorded as `parent_fork = 0`). -/
def newFork (forkId : Nat) (base leaf : Block) (parentFork : Option Fork) : Fork :=
  { forkId := forkId
    baseSlot := base.slot
    baseRoot := base.root
    leafSlot := leaf.slot
    leafRoot := leaf.root
    parentFork := match parentFork with | none => 0 | some f => f.forkId }

/-- Relabel the cached block with the given root (the Go code mutates the
shared `*Block`, which lives in the block cache). -/
def setBlockForkId (s : CacheState) (root forkId : Nat) : CacheState :=
  { s with blocks := s.blocks.map (fun b => if b.root = root then { b with forkId := forkId } else b) }

/-- `forkCache.addFork`: register the fork in the fork map. -/
def addFork (s : CacheState) (f : Fork) : CacheState :=
  { s with forks := s.forks ++ [f] }

/-- `forkCache.updateNewForkBlocks`, translated line by line from
`forkcache.go`: walk the (slot-descending) member list of the parent fork; a
block at or below the base slot makes the function `return nil`, discarding the
collected root list (while keeping the fork-id relabelings already applied);
otherwise a block whose chain contains the fork's leaf
(`getCanonicalDistance(fork.leafRoot, block.Root, 0)`) is relabeled to the new
fork id and its root collected. -/
def updateNewForkBlocks (s : CacheState) (fork : Fork) :
    List Block → List Nat → CacheState × List Nat
  | [], acc => (s, acc)
  | b :: rest, acc =>
    if b.slot ≤ fork.baseSlot then (s, [])
    else
      let r := getCanonicalDistance s fork.leafRoot b.root 0
      if !r.1 then updateNewForkBlocks s fork rest acc
      else updateNewForkBlocks (setBlockForkId s b.root fork.forkId) fork rest (acc ++ [b.root])

/-- One operation of the store transaction run by `processBlock` on a split. -/
inductive DbOp where
  | insertFork (fork : Fork)
  | updateUnfinalizedBlockForkId (roots : List Nat) (forkId : Nat)
  deriving Repr, DecidableEq

/-- Stable insertion sort of the fork member list by slot, descending
(`sort.Slice(forkBlocks, …Slot > …Slot)` in the source; ties keep cache
order). -/
def insertBySlotDesc (b : Block) : List Block → List Block
  | [] => [b]
  | c :: rest => if b.slot > c.slot then b :: c :: rest else c :: insertBySlotDesc b rest

/-- See `insertBySlotDesc`. -/
def sortBySlotDesc (l : List Block) : List Block :=
  l.foldr insertBySlotDesc []

/-- Result of `forkCache.processBlock`: the updated caches, the returned fork
id and the operations of the single store transaction (empty when no fork was
created). -/
structure ProcessResult where
  state : CacheState
  returnedForkId : Nat
  txOps : List DbOp
  deriving Repr, DecidableEq

/-- The outer loop of `forkCache.processBlock`: probe each member of the parent
fork (skipping roots already seen in `parentsMap`); on the first probe that
finds a base with both distances strictly above `minForkDistance`, create the
two forks, relabel both sides and stop. -/
def processBlockLoop (block : Block) (parentFork : Option Fork) (parentForkId : Nat)
    (forkBlocks : List Block) :
    CacheState → List Block → List Nat → ProcessResult
  | s, [], _ => ⟨s, parentForkId, []⟩
  | s, fb :: rest, pm =>
    if fb.root ∈ pm then processBlockLoop block parentFork parentForkId forkBlocks s rest pm
    else
      match checkForkDistance s block fb pm with
      | (some pr, pm') =>
        if pr.block1Distance > s.minForkDistance ∧ pr.block2Distance > s.minForkDistance then
          let fork1 := newFork s.nextForkId pr.baseBlock pr.leafBlock1 parentFork
          let s1 := addFork { s with nextForkId := s.nextForkId + 1 } fork1
          let (s2, fork1Roots) := updateNewForkBlocks s1 fork1 forkBlocks []
          let fork2 := newFork s2.nextForkId pr.baseBlock pr.leafBlock2 parentFork
          let s3 := addFork { s2 with nextForkId := s2.nextForkId + 1 } fork2
          let (s4, fork2Roots) := updateNewForkBlocks s3 fork2 forkBlocks []
          ⟨s4, fork1.forkId,
            [DbOp.insertFork fork1,
             DbOp.updateUnfinalizedBlockForkId fork1Roots fork1.forkId,
             DbOp.insertFork fork2,
             DbOp.updateUnfinalizedBlockForkId fork2Roots fork2.forkId]⟩
        else processBlockLoop block parentFork parentForkId forkBlocks s rest pm'
      | (none, pm') => processBlockLoop block parentFork parentForkId forkBlocks s rest pm'

/-- `forkCache.processBlock`, translated from `forkcache.go`: find the closest
fork of the block, enumerate that fork's cached members sorted by slot
descending, and run the probe loop. -/
def processBlock (s : CacheState) (block : Block) : ProcessResult :=
  let parentFork := getClosestFork s block
  let parentForkId := match parentFork with | none => 0 | some f => f.forkId
  let forkBlocks := sortBySlotDesc (getForkBlocks s parentForkId)
  processBlockLoop block parentFork parentForkId forkBlocks s forkBlocks []

/-! ## Concrete fork scenarios

Scenario of the spec's "Detectable split" test (and of claim C1): the linear
chain `A@100 → B@101 → C@102 → D@103 → E@104` plus the branch
`B → C1@102 → D1@103 → E1@104`, all still labeled fork 0, processed for the
tip `E1` of the second branch. Roots: A=1, B=2, C=3, D=4, E=5, C1=6, D1=7,
E1=8; A's parent (root 0) is below the cache. -/

/-- A fork-0 cache block with the given root, slot and parent root. -/
def mkBlock (root slot parent : Nat) : Block :=
  { root := root, slot := slot, parentRoot := some parent, forkId := 0 }

/-- The eight blocks of the detectable-split scenario, in insertion order. -/
def splitScenarioBlocks : List Block :=
  [ mkBlock 1 100 0, mkBlock 2 101 1, mkBlock 3 102 2, mkBlock 4 103 3, mkBlock 5 104 4,
    mkBlock 6 102 2, mkBlock 7 103 6, mkBlock 8 104 7 ]

/-- The detectable-split cache state, parameterized by `minForkDistance`
(finalized slot 99, no forks yet, fork-id counter at 1). -/
def splitScenarioState (mfd : Nat) : CacheState :=
  { blocks := splitScenarioBlocks, forks := [], nextForkId := 1,
    finalizedSlot := 99, minForkDistance := mfd }

/-- The processed block of the split scenario: the second branch's tip `E1`. -/
def splitScenarioTip : Block := mkBlock 8 104 7

/-- Scenario for repeated `processBlock` calls (claim C9): a main chain
`1@100 → 2@101 → 3@102 → 4@103 → 5@104 → 6@105 → 7@106 → 8@107 → 9@108 →
20@109`, a branch from block 3 (`10@103 … 15@108, 21@109`) and a branch from
block 5 (`16@105 … 19@108`), all labeled fork 0. -/
def repeatScenarioBlocks : List Block :=
  [ mkBlock 1 100 0, mkBlock 2 101 1, mkBlock 3 102 2, mkBlock 4 103 3, mkBlock 5 104 4,
    mkBlock 6 105 5, mkBlock 7 106 6, mkBlock 8 107 7, mkBlock 9 108 8, mkBlock 20 109 9,
    mkBlock 10 103 3, mkBlock 11 104 10, mkBlock 12 105 11, mkBlock 13 106 12,
    mkBlock 14 107 13, mkBlock 15 108 14, mkBlock 21 109 15,
    mkBlock 16 105 5, mkBlock 17 106 16, mkBlock 18 107 17, mkBlock 19 108 18 ]

/-- The repeated-processing cache state (`minForkDistance = 3`, the design
default). -/
def repeatScenarioState : CacheState :=
  { blocks := repeatScenarioBlocks, forks := [], nextForkId := 1,
    finalizedSlot := 99, minForkDistance := 3 }

/-- The processed block of the repeated-processing scenario: the main tip. -/
def repeatScenarioTip : Block := mkBlock 20 109 9

/-! ## Store query layer

Structural model of the SQL statements of the db package, and row-level
semantics of the insert conflict clauses. -/

/-- The two store back-ends (`dbtypes.DBEngineType`). -/
inductive DBEngineType where
  | pgsql
  | sqlite
  deriving Repr, DecidableEq

/-- What an INSERT's conflict clause does at row level: `doNothing` models
`ON CONFLICT … DO NOTHING` / `INSERT OR IGNORE`, `replaceRow` models
`ON CONFLICT … DO UPDATE SET <all columns>` / `INSERT OR REPLACE`. -/
inductive InsertConflictAction where
  | doNothing
  | replaceRow
  deriving Repr, DecidableEq

/-- Shape of an INSERT statement: target table, column list, number of value
placeholders, conflict behavior. -/
structure InsertQueryShape where
  table : String
  columns : List String
  valuesPlaceholders : Nat
  conflictAction : InsertConflictAction
  deriving Repr, DecidableEq

/-- The INSERT statement issued by `db.InsertFork` per engine, transcribed from
the source SQL: the PostgreSQL branch upserts the six fork columns into
`forks`; the SQLite branch (as written) targets `unfinalized_blocks` with nine
column names (`fork_id` twice) and only six value placeholders. -/
def insertForkQuery : DBEngineType → InsertQueryShape
  | .pgsql =>
    { table := "forks"
      columns := ["fork_id", "base_slot", "base_root", "leaf_slot", "leaf_root", "parent_fork"]
      valuesPlaceholders := 6
      conflictAction := .replaceRow }
  | .sqlite =>
    { table := "unfinalized_blocks"
      columns := ["fork_id", "root", "slot", "header_ver", "header_ssz", "block_ver",
                  "block_ssz", "status", "fork_id"]
      valuesPlaceholders := 6
      conflictAction := .replaceRow }

/-- The six columns of the `forks` table. -/
def forkTableColumns : List String :=
  ["fork_id", "base_slot", "base_root", "leaf_slot", "leaf_root", "parent_fork"]

/-- A row of the `unfinalized_blocks` table (primary key `root`). -/
structure UnfinalizedBlockRow where
  root : Nat
  slot : Nat
  headerVer : Nat
  headerSSZ : Nat
  blockVer : Nat
  blockSSZ : Nat
  status : Nat
  forkId : Nat
  deriving Repr, DecidableEq

/-- Conflict clause of `db.InsertUnfinalizedBlock` per engine, transcribed from
the source SQL: `ON CONFLICT (root) DO NOTHING` on PostgreSQL and
`INSERT OR IGNORE` on SQLite. -/
def insertUnfinalizedBlockConflictAction : DBEngineType → InsertConflictAction
  | .pgsql => .doNothing
  | .sqlite => .doNothing

/-- Row-level semantics of inserting into a table keyed by `root` under the
given conflict action. -/
def applyRootKeyedInsert (action : InsertConflictAction)
    (table : List UnfinalizedBlockRow) (row : UnfinalizedBlockRow) :
    List UnfinalizedBlockRow :=
  match action with
  | .doNothing => if table.any (fun r => r.root = row.root) then table else table ++ [row]
  | .replaceRow => (table.filter (fun r => ¬ r.root = row.root)) ++ [row]

/-- `db.InsertUnfinalizedBlock` applied to a table state. -/
def insertUnfinalizedBlock (engine : DBEngineType)
    (table : List UnfinalizedBlockRow) (row : UnfinalizedBlockRow) :
    List UnfinalizedBlockRow :=
  applyRootKeyedInsert (insertUnfinalizedBlockConflictAction engine) table row

/-! ## Deposit indexer

Model of `DepositIndexer.processFinalizedBlocks` and
`DepositIndexer.persistFinalizedDepositTxs`. Byte strings (pubkeys,
signatures, hashes) are modelled as naturals; the transaction sender/target
lookup is modelled as always succeeding (its failure mode is not the subject
of any claim). -/

/-- The five decoded `bytes` fields of a `DepositEvent` log
(`abi.Unpack("DepositEvent", log.Data)`). -/
structure DepositEvent where
  pubkey : Nat
  withdrawalCredentials : Nat
  amount : Nat
  signature : Nat
  index : Nat
  deriving Repr, DecidableEq

/-- An execution-layer log as used by the deposit indexer: its first topic, the
result of decoding its data as a `DepositEvent` (`none` models an `Unpack`
error), and the block/transaction metadata copied into the deposit row. -/
structure EthLog where
  topic0 : Nat
  dataDecodes : Option DepositEvent
  blockNumber : Nat
  blockHash : Nat
  txHash : Nat
  txSender : Nat
  txTarget : Nat
  deriving Repr, DecidableEq

/-- A `dbtypes.DepositTx` row as built by the deposit indexer. -/
structure DepositTx where
  index : Nat
  blockNumber : Nat
  blockRoot : Nat
  publicKey : Nat
  withdrawalCredentials : Nat
  amount : Nat
  signature : Nat
  txHash : Nat
  txSender : Nat
  txTarget : Nat
  deriving Repr, DecidableEq

/-- The deposit row built from a log and its decoded event. -/
def depositTxOfLog (log : EthLog) (ev : DepositEvent) : DepositTx :=
  { index := ev.index
    blockNumber := log.blockNumber
    blockRoot := log.blockHash
    publicKey := ev.pubkey
    withdrawalCredentials := ev.withdrawalCredentials
    amount := ev.amount
    signature := ev.signature
    txHash := log.txHash
    txSender := log.txSender
    txTarget := log.txTarget }

/-- The per-log loop of `DepositIndexer.processFinalizedBlocks`, translated
from the source: a log whose first topic differs from the deposit event topic
is skipped (`continue`); a log whose data fails to decode makes the whole
batch fail (`return fmt.Errorf("error decoding deposit event …")`); otherwise
the deposit row is appended. -/
def collectDeposits (depositEventTopic : Nat) : List EthLog → Except String (List DepositTx)
  | [] => .ok []
  | log :: rest =>
    if log.topic0 ≠ depositEventTopic then collectDeposits depositEventTopic rest
    else
      match log.dataDecodes with
      | none => .error "error decoding deposit event"
      | some ev =>
        match collectDeposits depositEventTopic rest with
        | .error e => .error e
        | .ok txs => .ok (depositTxOfLog log ev :: txs)

/-- The store state touched by the deposit indexer: the `deposit_txs` rows and
the `final_block` value of the serialized `indexer.depositstate` row. -/
structure DepositDbState where
  depositTxs : List DepositTx
  stateFinalBlock : Nat
  deriving Repr, DecidableEq

/-- Which step of `persistFinalizedDepositTxs` fails, if any. -/
inductive PersistFault where
  | ok
  | insertFails
  | stateWriteFails
  | commitFails
  deriving Repr, DecidableEq

/-- Result of `persistFinalizedDepositTxs`: the store state (rolled back on
error), the in-memory `ds.state.FinalBlock` and the error flag. -/
structure PersistResult where
  db : DepositDbState
  memFinalBlock : Nat
  err : Bool
  deriving Repr, DecidableEq

/-- `DepositIndexer.persistFinalizedDepositTxs`, translated line by line: begin
a transaction (with a deferred rollback, so on any error the store keeps its
old state); insert the deposit rows; assign `ds.state.FinalBlock =
toBlockNumber` — an in-memory write that happens BEFORE the state row write
and the commit; write the serialized state row; commit. -/
def persistFinalizedDepositTxs (db : DepositDbState) (memFinalBlock toBlock : Nat)
    (deposits : List DepositTx) (fault : PersistFault) : PersistResult :=
  let tx := db
  if fault = .insertFails then ⟨db, memFinalBlock, true⟩
  else
    let tx := { tx with depositTxs := tx.depositTxs ++ deposits }
    let memFinalBlock := toBlock
    if fault = .stateWriteFails then ⟨db, memFinalBlock, true⟩
    else
      let tx := { tx with stateFinalBlock := toBlock }
      if fault = .commitFails then ⟨db, memFinalBlock, true⟩
      else ⟨tx, memFinalBlock, false⟩

/-- In-memory and store state of one deposit-indexer run. -/
structure DepositIndexerState where
  memFinalBlock : Nat
  db : DepositDbState
  deriving Repr, DecidableEq

/-- The batch loop of `DepositIndexer.processFinalizedBlocks`, translated from
the source: while `FinalBlock < finalizedBlockNumber`, compute the batch end
`min(FinalBlock + batchSize, finalizedBlockNumber)`, fetch the logs of the
range, run the per-log loop (any decode error aborts the run), and — only when
at least one deposit row was built — persist the batch, advancing `FinalBlock`.
`logsInRange` is the `FilterLogs` oracle and `faults` gives the persist fault
of each performed persist call. The function is fuelled; `ok none` means the
loop was still running when the fuel ran out. -/
def processFinalizedBlocksLoop (batchSize depositEventTopic : Nat)
    (logsInRange : Nat → Nat → List EthLog) (finalizedBlockNumber : Nat)
    (faults : Nat → PersistFault) :
    Nat → Nat → DepositIndexerState → Except String (Option DepositIndexerState)
  | 0, _, _ => .ok none
  | fuel + 1, persistCount, st =>
    if st.memFinalBlock < finalizedBlockNumber then
      let toBlock := min (st.memFinalBlock + batchSize) finalizedBlockNumber
      match collectDeposits depositEventTopic (logsInRange st.memFinalBlock toBlock) with
      | .error e => .error e
      | .ok depositTxs =>
        if depositTxs.length > 0 then
          let p := persistFinalizedDepositTxs st.db st.memFinalBlock toBlock depositTxs
            (faults persistCount)
          if p.err then .error "could not persist deposit txs"
          else
            processFinalizedBlocksLoop batchSize depositEventTopic logsInRange
              finalizedBlockNumber faults fuel (persistCount + 1) ⟨p.memFinalBlock, p.db⟩
        else
          processFinalizedBlocksLoop batchSize depositEventTopic logsInRange
            finalizedBlockNumber faults fuel persistCount st
    else .ok (some st)

/-! ## Block header/body acquire-once synchronization

State machine over the synchronization-relevant fields of `beacon.Block`
(`header`, `headerChan`, `block`, `blockChan`, the db presence flags) and the
operations `SetHeader`, `EnsureHeader`, `SetBlock`, `EnsureBlock`. Channel
closes are counted; in Go a second `close` of the same channel is a run-time
panic, so a close count of 2 marks the crash the claim is about. -/

/-- Synchronization state of one `beacon.Block`. `headerChan` is created open
and never set to nil; `blockChan` is set to nil after being closed
(`blockChanLive = false`). -/
structure BlockSync where
  header : Option Nat
  headerChanClosed : Bool
  headerCloseCount : Nat
  blockVal : Option Nat
  blockChanLive : Bool
  blockCloseCount : Nat
  isInUnfinalizedDb : Bool
  isInFinalizedDb : Bool
  deriving Repr, DecidableEq

/-- A freshly constructed block (`newBlock`): no header, no body, both
channels open, not present in any db table. -/
def initBlockSync : BlockSync :=
  { header := none, headerChanClosed := false, headerCloseCount := 0,
    blockVal := none, blockChanLive := true, blockCloseCount := 0,
    isInUnfinalizedDb := false, isInFinalizedDb := false }

/-- `close(block.headerChan)`: always increments the close count; a count
above 1 is the double close (a Go panic). -/
def closeHeaderChan (s : BlockSync) : BlockSync :=
  { s with headerChanClosed := true, headerCloseCount := s.headerCloseCount + 1 }

/-- `close(block.blockChan)` followed by `block.blockChan = nil` (only ever
called when the channel is non-nil). -/
def closeBlockChan (s : BlockSync) : BlockSync :=
  { s with blockChanLive := false, blockCloseCount := s.blockCloseCount + 1 }

/-- One call against a block: `SetHeader(h)`, `EnsureHeader(loadHeader)`,
`SetBlock(b)`, `EnsureBlock(loadBlock)`. A loader is modelled by its outcome:
`Except.error` for a load error, `Except.ok v` for a returned (possibly nil)
value. -/
inductive BlockOp where
  | setHeader (h : Option Nat)
  | ensureHeader (load : Except Unit (Option Nat))
  | setBlock (b : Option Nat)
  | ensureBlock (load : Except Unit (Option Nat))

/-- The four operations, translated line by line from `beacon.Block`:
`SetHeader` assigns the header and closes the header channel whenever the new
header is non-nil (no already-closed guard); `EnsureHeader` returns early when
the header is present or the block is in a db table, else runs the loader and
on success assigns and closes; `SetBlock` assigns the body and closes the body
channel only when it is still non-nil; `EnsureBlock` mirrors `EnsureHeader`
with the non-nil guard on the close. -/
def blockStep (s : BlockSync) : BlockOp → BlockSync
  | .setHeader h =>
    let s := { s with header := h }
    if h.isSome then closeHeaderChan s else s
  | .ensureHeader load =>
    if s.header.isSome then s
    else if s.isInUnfinalizedDb || s.isInFinalizedDb then s
    else if s.header.isSome then s
    else
      match load with
      | .error _ => s
      | .ok h => closeHeaderChan { s with header := h }
  | .setBlock b =>
    let s := { s with blockVal := b }
    if s.blockChanLive then closeBlockChan s else s
  | .ensureBlock load =>
    if s.blockVal.isSome then s
    else if s.isInUnfinalizedDb || s.isInFinalizedDb then s
    else if s.blockVal.isSome then s
    else
      match load with
      | .error _ => s
      | .ok b =>
        let s := { s with blockVal := b }
        if s.blockChanLive then closeBlockChan s else s

/-- A sequence of calls against one block. -/
def runBlockOps (s : BlockSync) (ops : List BlockOp) : BlockSync :=
  ops.foldl blockStep s

/-- Operations of the loader discipline: values arrive only through
`EnsureHeader`/`EnsureBlock`, and a successful header load returns a non-nil
header (a beacon node returning neither header nor error does not occur). -/
def ensureOnly : BlockOp → Bool
  | .setHeader _ => false
  | .setBlock _ => false
  | .ensureHeader (.ok none) => false
  | .ensureHeader _ => true
  | .ensureBlock _ => true

/-! ## SSE event stream client

Model of the retry/backoff state of `eventstream.Stream`: `receiveEvents`
adopts a positive server-provided `retry` and a non-empty event id;
`retryRestartStream` starts from the stream's current `retry` value, sleeps
before every reconnect attempt and doubles the backoff after every failed
attempt. -/

/-- An SSE event as seen by `receiveEvents`: its id and its `retry` field in
milliseconds (0 when absent; the Go code applies it only when positive). -/
structure SSEEvent where
  id : String
  retryMs : Int
  deriving Repr, DecidableEq

/-- The stream state the reconnect logic depends on. -/
structure StreamState where
  lastEventId : String
  retry : Nat
  deriving Repr, DecidableEq

/-- `SubscribeWith` initializes `retry` to 3000 ms. -/
def initStreamState (lastEventId : String) : StreamState :=
  { lastEventId := lastEventId, retry := 3000 }

/-- Per-event update of `receiveEvents`: `if pub.Retry() > 0`, adopt it as the
new retry; `if len(pub.Id()) > 0`, adopt it as the last event id. -/
def applyEvent (s : StreamState) (ev : SSEEvent) : StreamState :=
  let s := if ev.retryMs > 0 then { s with retry := ev.retryMs.toNat } else s
  if ev.id.length > 0 then { s with lastEventId := ev.id } else s

/-- Sleeps performed by one `retryRestartStream` invocation: `backoff` starts
at the stream's current retry; the loop sleeps, attempts a connect, and on
failure doubles `backoff` and repeats. `failures` is the number of failed
connect attempts before the successful one. -/
def retrySleeps (backoff : Nat) : Nat → List Nat
  | 0 => [backoff]
  | n + 1 => backoff :: retrySleeps (backoff * 2) n

/-- One stream session: the events received until the stream-side failure, and
the number of failed reconnect attempts before the reconnect succeeds. -/
structure StreamSession where
  events : List SSEEvent
  failedConnects : Nat
  deriving Repr, DecidableEq

/-- Stream state after a session's events were received. -/
def sessionState (s : StreamState) (sess : StreamSession) : StreamState :=
  sess.events.foldl applyEvent s

/-- The sleeps of the restart phase that follows a session: `retryRestartStream`
reads `backoff := stream.retry` at entry, so every phase starts from the retry
value current after the session's events. -/
def sessionSleeps (s : StreamState) (sess : StreamSession) : List Nat :=
  retrySleeps (sessionState s sess).retry sess.failedConnects

/-- All sleeps of a run of consecutive sessions. -/
def streamSleeps (s : StreamState) : List StreamSession → List Nat
  | [] => []
  | sess :: rest => sessionSleeps s sess ++ streamSleeps (sessionState s sess) rest

/-! ## Helper lemmas -/

/-- `updateNewForkBlocks` never touches the fork map: it only relabels
blocks. -/
theorem updateNewForkBlocks_forks (fork : Fork) :
    ∀ (s : CacheState) (l : List Block) (acc : List Nat),
      (updateNewForkBlocks s fork l acc).1.forks = s.forks := by
  intro s l
  induction l generalizing s with
  | nil => intro acc; rfl
  | cons b rest ih =>
    intro acc
    by_cases hslot : b.slot ≤ fork.baseSlot
    · simp [updateNewForkBlocks, hslot]
    · by_cases hin : (getCanonicalDistance s fork.leafRoot b.root 0).1
      · simpa [updateNewForkBlocks, hslot, hin, setBlockForkId] using
          ih (setBlockForkId s b.root fork.forkId) (acc ++ [b.root])
      · simpa [updateNewForkBlocks, hslot, hin] using ih s acc

/-- The probe loop of `processBlock` either performs no split — leaving the
cache state untouched, returning the parent fork id with no store
transaction — or it appends exactly two forks to the fork map. -/
theorem processBlockLoop_state_or (block : Block) (parentFork : Option Fork)
    (parentForkId : Nat) (forkBlocks : List Block) :
    ∀ (fbs : List Block) (s : CacheState) (pm : List Nat),
      processBlockLoop block parentFork parentForkId forkBlocks s fbs pm =
          ⟨s, parentForkId, []⟩ ∨
        (processBlockLoop block parentFork parentForkId forkBlocks s fbs pm).state.forks.length =
          s.forks.length + 2 := by
  intro fbs
  induction fbs with
  | nil => intro s pm; exact Or.inl rfl
  | cons fb rest ih =>
    intro s pm
    by_cases hpm : fb.root ∈ pm
    · rw [processBlockLoop, if_pos hpm]
      exact ih s pm
    · rcases hprobe : checkForkDistance s block fb pm with ⟨res, pmNext⟩
      cases res with
      | none =>
        rw [processBlockLoop, if_neg hpm, hprobe]
        exact ih s pmNext
      | some pr =>
        by_cases hsplit :
            pr.block1Distance > s.minForkDistance ∧ pr.block2Distance > s.minForkDistance
        · refine Or.inr ?_
          rw [processBlockLoop, if_neg hpm, hprobe]
          simp only [if_pos hsplit]
          simp [updateNewForkBlocks_forks, addFork]
        · rw [processBlockLoop, if_neg hpm, hprobe]
          simp only [if_neg hsplit]
          exact ih s pmNext

/-- `processBlock` either leaves the cache state untouched (no split) or adds
exactly two forks. -/
theorem processBlock_state_or (s : CacheState) (block : Block) :
    ((processBlock s block).state = s ∧ (processBlock s block).txOps = []) ∨
      (processBlock s block).state.forks.length = s.forks.length + 2 := by
  have hdef : processBlock s block =
      processBlockLoop block (getClosestFork s block)
        (match getClosestFork s block with | none => 0 | some f => f.forkId)
        (sortBySlotDesc (getForkBlocks s
          (match getClosestFork s block with | none => 0 | some f => f.forkId)))
        s
        (sortBySlotDesc (getForkBlocks s
          (match getClosestFork s block with | none => 0 | some f => f.forkId)))
        [] := rfl
  rcases processBlockLoop_state_or block (getClosestFork s block)
      (match getClosestFork s block with | none => 0 | some f => f.forkId)
      (sortBySlotDesc (getForkBlocks s
        (match getClosestFork s block with | none => 0 | some f => f.forkId)))
      (sortBySlotDesc (getForkBlocks s
        (match getClosestFork s block with | none => 0 | some f => f.forkId)))
      s [] with h | h
  · rw [hdef, h]
    exact Or.inl ⟨rfl, rfl⟩
  · rw [hdef]
    exact Or.inr h

/-- Each slot of a restart phase doubles the previous one: the `j`-th sleep
(0-based) of a phase with starting backoff `b` is `2 ^ j * b`. -/
theorem retrySleeps_get (n : Nat) :
    ∀ (b j : Nat), j ≤ n → (retrySleeps b n).get? j = some (2 ^ j * b) := by
  induction n with
  | zero =>
    intro b j hj
    interval_cases j
    simp [retrySleeps]
  | succ n ih =>
    intro b j hj
    cases j with
    | zero => simp [retrySleeps]
    | succ j =>
      have hj2 : j ≤ n := Nat.lt_succ_iff.mp hj
      have := ih (b * 2) j hj2
      simp only [retrySleeps, List.get?_cons_succ, this]
      congr 1
      ring

/-! ## Claim C1 -/

/-- Claim C1, counterexample: on the claimed scenario — the chain
`A@100 → B@101 → C@102 → D@103 → E@104` plus the branch
`B → C1@102 → D1@103 → E1@104`, with `min_fork_distance = 3` and both
distances from `B` exactly 3 — `processBlock` creates NO forks at all: the
cache state is unchanged, the returned fork id is 0 and no store transaction
runs, contradicting the claim that two forks with base `B` are created. The
split condition in the source requires both distances STRICTLY greater than
`min_fork_distance`. -/
theorem c1_threshold_boundary_counterexample :
    processBlock (splitScenarioState 3) splitScenarioTip =
      ⟨splitScenarioState 3, 0, []⟩ := by
  decide

/-- Claim C1 (amended): the fork split fires only when both distances strictly
exceed `min_fork_distance`. On the same insertion scenario with
`min_fork_distance = 2` (distances 3 > 2 on each side), `processBlock` creates
exactly two new forks, both with `base_root = B.root` (root 2); their leaf
roots are the two children of the base — `C1.root` (root 6) and `C.root`
(root 3), not the branch tips — and the blocks `C1,D1,E1` (roots 6,7,8) are
relabeled to the first fork while `C,D,E` (roots 3,4,5) are relabeled to the
second; the call returns the first fork's id. -/
theorem c1_split_strictly_above_threshold :
    (processBlock (splitScenarioState 2) splitScenarioTip).state.forks =
        [⟨1, 101, 2, 102, 6, 0⟩, ⟨2, 101, 2, 102, 3, 0⟩] ∧
      (processBlock (splitScenarioState 2) splitScenarioTip).returnedForkId = 1 ∧
      ((processBlock (splitScenarioState 2) splitScenarioTip).state.blocks.map
          (fun b => (b.root, b.forkId))) =
        [(1, 0), (2, 0), (3, 2), (4, 2), (5, 2), (6, 1), (7, 1), (8, 1)] := by
  decide

/-! ## Claim C2 -/

/-- Claim C2: when the split of the detectable-split scenario (with
`min_fork_distance = 2`) relabels three blocks per side in memory (roots 6,7,8
to the first fork and 3,4,5 to the second), the store transaction nevertheless
carries EMPTY root lists for both `UpdateUnfinalizedBlockForkId` calls:
`updateNewForkBlocks` hits the base block `B` (slot 101 ≤ base slot 101) in
the slot-descending member list and `return nil` discards the collected
roots. The persisted transaction therefore does not contain the reassigned
roots, contradicting the claim that the full lists are persisted. -/
theorem c2_reassigned_roots_not_persisted :
    (processBlock (splitScenarioState 2) splitScenarioTip).txOps =
        [DbOp.insertFork ⟨1, 101, 2, 102, 6, 0⟩,
         DbOp.updateUnfinalizedBlockForkId [] 1,
         DbOp.insertFork ⟨2, 101, 2, 102, 3, 0⟩,
         DbOp.updateUnfinalizedBlockForkId [] 2] ∧
      (((processBlock (splitScenarioState 2) splitScenarioTip).state.blocks.filter
          (fun b => b.forkId = 1)).map (fun b => b.root)) = [6, 7, 8] ∧
      (((processBlock (splitScenarioState 2) splitScenarioTip).state.blocks.filter
          (fun b => b.forkId = 2)).map (fun b => b.root)) = [3, 4, 5] := by
  decide

/-! ## Claim C3 -/

/-- Claim C3: deposit-indexer persistence is NOT atomic with respect to the
in-memory state. When the commit of `persistFinalizedDepositTxs` fails for a
batch ending at block 10000, the store is rolled back (no deposit rows, stored
`final_block` still 0) and an error is reported — but the in-memory
`ds.state.FinalBlock`, which the next cycle reads without reloading, has
already been advanced to 10000, so the next cycle skips the failed batch
instead of retrying it. This contradicts the claim that the value the next
cycle reads is not advanced. -/
theorem c3_commit_failure_advances_memory_state :
    persistFinalizedDepositTxs ⟨[], 0⟩ 0 10000
        [⟨0, 9500, 1, 11, 12, 32000000000, 13, 14, 15, 16⟩] PersistFault.commitFails =
      ⟨⟨[], 0⟩, 10000, true⟩ := by
  decide

/-! ## Claim C4 -/

/-- Claim C4: a batch whose log range contains no `DepositEvent` logs never
advances `final_block` — the persist call is guarded by
`len(depositTxs) > 0` — so with `final_block = 0`, a finalized block number of
10000, batch size 10000 and an empty log range, the scan loop re-fetches the
same range forever: for EVERY fuel bound the loop is still running (`ok none`),
contradicting the claim that `final_block` advances to the batch end and the
loop terminates. -/
theorem c4_empty_batch_loop_never_terminates :
    ∀ fuel : Nat,
      processFinalizedBlocksLoop 10000 7 (fun _ _ => []) 10000 (fun _ => PersistFault.ok)
          fuel 0 ⟨0, ⟨[], 0⟩⟩ =
        .ok none := by
  intro fuel
  induction fuel with
  | zero => rfl
  | succ n ih =>
    rw [processFinalizedBlocksLoop]
    simpa [collectDeposits] using ih

/-! ## Claim C5 -/

/-- Claim C5: `InsertFork` writes the six fork columns into `forks` only on the
PostgreSQL back-end. The SQLite branch, as written in the source, targets the
`unfinalized_blocks` table with nine column names (`fork_id` listed twice,
plus block columns) and only six value placeholders — not the `forks` table
with the six fork columns the claim requires. -/
theorem c5_insertFork_sqlite_targets_wrong_table :
    (insertForkQuery DBEngineType.pgsql).table = "forks" ∧
      (insertForkQuery DBEngineType.pgsql).columns = forkTableColumns ∧
      (insertForkQuery DBEngineType.pgsql).valuesPlaceholders = forkTableColumns.length ∧
      (insertForkQuery DBEngineType.sqlite).table = "unfinalized_blocks" ∧
      (insertForkQuery DBEngineType.sqlite).columns ≠ forkTableColumns ∧
      (insertForkQuery DBEngineType.sqlite).columns.length ≠
        (insertForkQuery DBEngineType.sqlite).valuesPlaceholders := by
  decide

/-! ## Claim C6 -/

/-- Claim C6: SSE reconnect backoff. The stream's retry value starts at the
3000 ms default and is replaced by any positive server-provided retry; after a
stream-side failure, the restart phase sleeps before every reconnect attempt,
starting from the CURRENT retry value (so the backoff is reset to the base
whenever events flowed since the last phase) and doubling after each failed
attempt: the `j`-th sleep of a phase is `2 ^ j` times the retry value in force
after the session's events. -/
theorem c6_reconnect_backoff :
    (∀ lastId : String, (initStreamState lastId).retry = 3000) ∧
      (∀ (s : StreamState) (ev : SSEEvent), ev.retryMs > 0 →
        (applyEvent s ev).retry = ev.retryMs.toNat) ∧
      (∀ (s : StreamState) (sess : StreamSession) (j : Nat), j ≤ sess.failedConnects →
        (sessionSleeps s sess).get? j = some (2 ^ j * (sessionState s sess).retry)) := by
  refine ⟨fun _ => rfl, ?_, ?_⟩
  · intro s ev h
    simp only [applyEvent, if_pos h]
    by_cases hid : ev.id.length > 0
    · rw [if_pos hid]
    · rw [if_neg hid]
  · intro s sess j hj
    exact retrySleeps_get sess.failedConnects _ j hj

/-- Claim C6, witness: the claim's example. After the events
`{id=1}` and `{id=2, retry=5000}` and a disconnect, the first reconnect sleep
is 5000 ms and, after one failed reconnect attempt, the next sleep is
10000 ms. -/
theorem c6_reconnect_backoff_witness :
    (sessionSleeps (initStreamState "") ⟨[⟨"1", 0⟩, ⟨"2", 5000⟩], 1⟩).get? 0 =
        some 5000 ∧
      (sessionSleeps (initStreamState "") ⟨[⟨"1", 0⟩, ⟨"2", 5000⟩], 1⟩).get? 1 =
        some 10000 := by
  constructor
  · exact (c6_reconnect_backoff.2.2 (initStreamState "") ⟨[⟨"1", 0⟩, ⟨"2", 5000⟩], 1⟩ 0
      (by decide)).trans (by decide)
  · exact (c6_reconnect_backoff.2.2 (initStreamState "") ⟨[⟨"1", 0⟩, ⟨"2", 5000⟩], 1⟩ 1
      (by decide)).trans (by decide)

/-! ## Claim C7 -/

/-- One step preserves the body-channel discipline: the body channel close
count never exceeds 1, because `SetBlock`/`EnsureBlock` close only a live
channel and then set it to nil. This holds for EVERY operation. -/
theorem blockStep_body_inv (s : BlockSync) (op : BlockOp)
    (h1 : s.blockCloseCount ≤ 1) (h2 : s.blockChanLive = true → s.blockCloseCount = 0) :
    (blockStep s op).blockCloseCount ≤ 1 ∧
      ((blockStep s op).blockChanLive = true → (blockStep s op).blockCloseCount = 0) := by
  cases op with
  | setHeader h =>
    by_cases hs : h.isSome <;> simp_all [blockStep, closeHeaderChan]
  | ensureHeader load =>
    cases load with
    | error e => simp_all [blockStep]
    | ok h =>
      by_cases hh : s.header.isSome <;>
        by_cases hdb : (s.isInUnfinalizedDb || s.isInFinalizedDb) = true <;>
        simp_all [blockStep, closeHeaderChan]
  | setBlock b =>
    by_cases hl : s.blockChanLive = true <;>
      simp_all [blockStep, closeBlockChan]
  | ensureBlock load =>
    cases load with
    | error e =>
      by_cases hb : s.blockVal.isSome <;>
        by_cases hdb : (s.isInUnfinalizedDb || s.isInFinalizedDb) = true <;>
        simp_all [blockStep]
    | ok b =>
      by_cases hb : s.blockVal.isSome <;>
        by_cases hdb : (s.isInUnfinalizedDb || s.isInFinalizedDb) = true <;>
        by_cases hl : s.blockChanLive = true <;>
        simp_all [blockStep, closeBlockChan]

/-- The body-channel discipline holds along any call sequence. -/
theorem runBlockOps_body_inv (ops : List BlockOp) :
    ∀ s : BlockSync, s.blockCloseCount ≤ 1 → (s.blockChanLive = true → s.blockCloseCount = 0) →
      (runBlockOps s ops).blockCloseCount ≤ 1 := by
  induction ops with
  | nil => intro s h1 _; exact h1
  | cons op rest ih =>
    intro s h1 h2
    have h := blockStep_body_inv s op h1 h2
    exact ih (blockStep s op) h.1 h.2

/-- One `ensureOnly` step preserves the header discipline: the header channel
close count never exceeds 1, and it is 0 while the header is absent. -/
theorem blockStep_header_inv (s : BlockSync) (op : BlockOp) (hop : ensureOnly op = true)
    (h1 : s.headerCloseCount ≤ 1) (h2 : s.header = none → s.headerCloseCount = 0) :
    (blockStep s op).headerCloseCount ≤ 1 ∧
      ((blockStep s op).header = none → (blockStep s op).headerCloseCount = 0) := by
  cases op with
  | setHeader h => simp [ensureOnly] at hop
  | setBlock b => simp [ensureOnly] at hop
  | ensureHeader load =>
    cases load with
    | error e =>
      by_cases hh : s.header.isSome <;>
        by_cases hdb : (s.isInUnfinalizedDb || s.isInFinalizedDb) = true <;>
        simp_all [blockStep]
    | ok h =>
      cases h with
      | none => simp [ensureOnly] at hop
      | some v =>
        cases hsh : s.header with
        | some a =>
          constructor
          · simpa [blockStep, hsh] using h1
          · intro hcontra
            rw [blockStep] at hcontra
            simp [hsh] at hcontra
        | none =>
          by_cases hdb : (s.isInUnfinalizedDb || s.isInFinalizedDb) = true
          · constructor
            · simpa [blockStep, hsh, hdb] using h1
            · intro _
              simpa [blockStep, hsh, hdb] using h2 hsh
          · constructor
            · have h0 := h2 hsh
              simp [blockStep, hsh, hdb, closeHeaderChan, h0]
            · intro hcontra
              rw [blockStep] at hcontra
              simp [hsh, hdb, closeHeaderChan] at hcontra
  | ensureBlock load =>
    cases load with
    | error e =>
      by_cases hb : s.blockVal.isSome <;>
        by_cases hdb : (s.isInUnfinalizedDb || s.isInFinalizedDb) = true <;>
        simp_all [blockStep]
    | ok b =>
      by_cases hb : s.blockVal.isSome <;>
        by_cases hdb : (s.isInUnfinalizedDb || s.isInFinalizedDb) = true <;>
        by_cases hl : s.blockChanLive = true <;>
        simp_all [blockStep, closeBlockChan]

/-- The header discipline holds along any `ensureOnly` call sequence. -/
theorem runBlockOps_header_inv (ops : List BlockOp) :
    ∀ s : BlockSync, (∀ op ∈ ops, ensureOnly op = true) →
      s.headerCloseCount ≤ 1 → (s.header = none → s.headerCloseCount = 0) →
      (runBlockOps s ops).headerCloseCount ≤ 1 := by
  induction ops with
  | nil => intro s _ h1 _; exact h1
  | cons op rest ih =>
    intro s hops h1 h2
    have h := blockStep_header_inv s op (hops op (List.mem_cons_self op rest)) h1 h2
    exact ih (blockStep s op) (fun o ho => hops o (List.mem_cons_of_mem op ho)) h.1 h.2

/-- Claim C7, counterexample: the sequence `SetHeader(h); SetHeader(h)` with a
non-nil header closes the block's header notification channel TWICE —
`SetHeader` assigns the header and closes the channel without any
already-closed guard, so the second call closes a closed channel (a run-time
panic in Go), contradicting the claim that no call sequence reaches a second
close. -/
theorem c7_double_setHeader_closes_twice :
    (runBlockOps initBlockSync
        [BlockOp.setHeader (some 1), BlockOp.setHeader (some 1)]).headerCloseCount = 2 := by
  decide

/-- Claim C7 (amended): the body-side discipline holds unconditionally — across
ANY sequence of calls the body notification channel is closed at most once,
because `SetBlock`/`EnsureBlock` nil the channel after closing it. The
header-side guarantee holds for sequences that set fields only through
`EnsureHeader`/`EnsureBlock` (with header loaders that return a header on
success): the header channel is closed at most once, and once either field is
set, any further such call leaves it unchanged (set at most once). A repeated
`SetHeader` with a non-nil header, by contrast, re-closes the header channel. -/
theorem c7_acquire_once_amended :
    ∀ ops : List BlockOp,
      (runBlockOps initBlockSync ops).blockCloseCount ≤ 1 ∧
        ((∀ op ∈ ops, ensureOnly op = true) →
          (runBlockOps initBlockSync ops).headerCloseCount ≤ 1) ∧
        (∀ (s : BlockSync) (op : BlockOp), ensureOnly op = true →
          (s.header.isSome → (blockStep s op).header = s.header) ∧
            (s.blockVal.isSome → (blockStep s op).blockVal = s.blockVal)) := by
  intro ops
  refine ⟨runBlockOps_body_inv ops initBlockSync (by decide) (by decide), ?_, ?_⟩
  · intro hops
    exact runBlockOps_header_inv ops initBlockSync hops (by decide) (by decide)
  · intro s op hop
    cases op with
    | setHeader h => simp [ensureOnly] at hop
    | setBlock b => simp [ensureOnly] at hop
    | ensureHeader load =>
      constructor
      · intro hh
        simp [blockStep, hh]
      · intro _
        cases load with
        | error e =>
          by_cases hh : s.header.isSome <;>
            by_cases hdb : (s.isInUnfinalizedDb || s.isInFinalizedDb) = true <;>
            simp_all [blockStep]
        | ok h =>
          by_cases hh : s.header.isSome <;>
            by_cases hdb : (s.isInUnfinalizedDb || s.isInFinalizedDb) = true <;>
            simp_all [blockStep, closeHeaderChan]
    | ensureBlock load =>
      constructor
      · intro _
        cases load with
        | error e =>
          by_cases hb : s.blockVal.isSome <;>
            by_cases hdb : (s.isInUnfinalizedDb || s.isInFinalizedDb) = true <;>
            simp_all [blockStep]
        | ok b =>
          by_cases hb : s.blockVal.isSome <;>
            by_cases hdb : (s.isInUnfinalizedDb || s.isInFinalizedDb) = true <;>
            by_cases hl : s.blockChanLive = true <;>
            simp_all [blockStep, closeBlockChan]
      · intro hb
        simp [blockStep, hb]

/-- Claim C7, witness: the amended guarantee evaluated on a loader-discipline
sequence — one header load and one body load close each channel exactly once
(so at most once), and an `ensureOnly` call on a block whose header is already
present leaves the header unchanged. -/
theorem c7_acquire_once_amended_witness :
    (runBlockOps initBlockSync
        [BlockOp.ensureHeader (Except.ok (some 5)),
         BlockOp.ensureBlock (Except.ok (some 6))]).headerCloseCount ≤ 1 ∧
      (blockStep
          ⟨some 5, true, 1, none, true, 0, false, false⟩
          (BlockOp.ensureHeader (Except.ok (some 7)))).header = some 5 := by
  constructor
  · exact (c7_acquire_once_amended
      [BlockOp.ensureHeader (Except.ok (some 5)),
       BlockOp.ensureBlock (Except.ok (some 6))]).2.1 (by decide)
  · exact ((c7_acquire_once_amended []).2.2
      ⟨some 5, true, 1, none, true, 0, false, false⟩
      (BlockOp.ensureHeader (Except.ok (some 7))) (by decide)).1 (by decide)

/-! ## Claim C8 -/

/-- Claim C8, counterexample: a batch of three logs — one with a non-matching
topic, one whose data fails to decode as a `DepositEvent`, and one valid
deposit log — makes the per-log loop return an error: the decode failure
ABORTS the whole batch (`return fmt.Errorf(…)`), so the remaining valid log is
not processed, contradicting the claim that a decode failure only skips the
offending record. -/
theorem c8_decode_error_aborts_batch :
    collectDeposits 7
        [⟨5, some ⟨1, 2, 3, 4, 0⟩, 100, 7, 8, 9, 10⟩,
         ⟨7, none, 101, 7, 8, 9, 10⟩,
         ⟨7, some ⟨1, 2, 3, 4, 1⟩, 102, 7, 8, 9, 10⟩] =
      Except.error "error decoding deposit event" := by
  rfl

/-- Claim C8 (amended): a fetched log whose first topic does not match the
`DepositEvent` topic is skipped and the remaining logs of the batch are still
processed; but a matching log whose data fails to decode aborts the whole
batch with an error (nothing of the batch is persisted and the remaining logs
are not processed). -/
theorem c8_decode_policy_amended :
    ∀ (topic : Nat) (log : EthLog) (rest : List EthLog),
      (log.topic0 ≠ topic →
        collectDeposits topic (log :: rest) = collectDeposits topic rest) ∧
        (log.topic0 = topic → log.dataDecodes = none →
          collectDeposits topic (log :: rest) =
            Except.error "error decoding deposit event") := by
  intro topic log rest
  constructor
  · intro h
    rw [collectDeposits, if_pos h]
  · intro h hd
    rw [collectDeposits, if_neg (by simp [h]), hd]

/-- Claim C8, witness: the amended policy evaluated on concrete logs — a
non-matching log is dropped without affecting the rest, and a matching
undecodable log aborts. -/
theorem c8_decode_policy_amended_witness :
    collectDeposits 7 [⟨5, some ⟨1, 2, 3, 4, 0⟩, 100, 7, 8, 9, 10⟩] =
        collectDeposits 7 [] ∧
      collectDeposits 7 [⟨7, none, 101, 7, 8, 9, 10⟩] =
        Except.error "error decoding deposit event" := by
  constructor
  · exact (c8_decode_policy_amended 7 ⟨5, some ⟨1, 2, 3, 4, 0⟩, 100, 7, 8, 9, 10⟩ []).1
      (by decide)
  · exact (c8_decode_policy_amended 7 ⟨7, none, 101, 7, 8, 9, 10⟩ []).2 (by decide) (by decide)

/-! ## Claim C9 -/

/-- Claim C9, counterexample: `processBlock` is not idempotent. On the
repeated-processing scenario (three branches, `min_fork_distance = 3`), the
first call on the main tip splits at block 3 and creates forks 1 and 2, but
its early return leaves the divergence at block 5 — now inside fork 1 —
unprocessed; an immediately repeated call on the SAME block (no other cache
changes in between) then splits again, creating two further forks (3 and 4)
and relabeling blocks (the processed block's own fork id changes from 1 to 3),
contradicting the claim that a second call creates no new forks and changes no
fork id. -/
theorem c9_second_call_creates_forks :
    (processBlock repeatScenarioState repeatScenarioTip).state.forks.length = 2 ∧
      (processBlock (processBlock repeatScenarioState repeatScenarioTip).state
          repeatScenarioTip).state.forks.length = 4 ∧
      ((getBlockByRoot (processBlock repeatScenarioState repeatScenarioTip).state 20).map
          (fun b => b.forkId)) = some 1 ∧
      ((getBlockByRoot
          (processBlock (processBlock repeatScenarioState repeatScenarioTip).state
            repeatScenarioTip).state 20).map (fun b => b.forkId)) = some 3 := by
  decide

/-- Claim C9 (amended): idempotence holds exactly when the first call performed
no split. If `processBlock` creates no new fork entities (its fork map is
unchanged), then it changed nothing at all, and an immediately repeated call
on the same block returns the identical result — no new forks, no fork-id
changes, same returned fork id. A first call that DID split may leave a
further divergence inside the new fork, which a repeated call then splits into
additional forks. -/
theorem c9_idempotent_when_no_split (s : CacheState) (block : Block)
    (h : (processBlock s block).state.forks = s.forks) :
    (processBlock s block).state = s ∧
      processBlock (processBlock s block).state block = processBlock s block := by
  rcases processBlock_state_or s block with hsame | hlen
  · refine ⟨hsame.1, ?_⟩
    rw [hsame.1]
  · exfalso
    have := congrArg List.length h
    rw [hlen] at this
    omega

/-- Claim C9, witness: the no-split case evaluated on the threshold-boundary
scenario — the call creates no forks, and the repeated call returns the
identical result. -/
theorem c9_idempotent_when_no_split_witness :
    (processBlock (splitScenarioState 3) splitScenarioTip).state = splitScenarioState 3 ∧
      processBlock (processBlock (splitScenarioState 3) splitScenarioTip).state
          splitScenarioTip =
        processBlock (splitScenarioState 3) splitScenarioTip :=
  c9_idempotent_when_no_split (splitScenarioState 3) splitScenarioTip (by decide)

/-! ## Claim C10 -/

/-- Claim C10: `InsertUnfinalizedBlock` is insert-or-ignore on BOTH back-ends
(`ON CONFLICT (root) DO NOTHING` on PostgreSQL, `INSERT OR IGNORE` on SQLite):
inserting a block whose root already exists in `unfinalized_blocks` leaves the
table — and hence every column of the existing row — unchanged. -/
theorem c10_insert_ignores_existing
    (engine : DBEngineType) (table : List UnfinalizedBlockRow)
    (row old : UnfinalizedBlockRow) (hmem : old ∈ table) (hroot : old.root = row.root) :
    insertUnfinalizedBlock engine table row = table := by
  have hany : table.any (fun r => r.root = row.root) = true := by
    rw [List.any_eq_true]
    exact ⟨old, hmem, by simp [hroot]⟩
  cases engine <;>
    simp [insertUnfinalizedBlock, insertUnfinalizedBlockConflictAction,
      applyRootKeyedInsert, hany]

/-- Claim C10, witness: re-inserting root 1 with entirely different column
values leaves the stored row untouched, on the PostgreSQL back-end. -/
theorem c10_insert_ignores_existing_witness :
    insertUnfinalizedBlock DBEngineType.pgsql
        [⟨1, 100, 1, 2, 1, 3, 0, 0⟩] ⟨1, 200, 9, 9, 9, 9, 9, 9⟩ =
      [⟨1, 100, 1, 2, 1, 3, 0, 0⟩] :=
  c10_insert_ignores_existing DBEngineType.pgsql _ _ ⟨1, 100, 1, 2, 1, 3, 0, 0⟩
    (by decide) (by decide)

end Dora
